import Mathlib

/-!
Verification development for the farm record-management web application
(`app.py`): field validators, domain entities (User, Category, Animal),
the bootstrap/setup flow and the CRUD handlers, shallowly embedded in Lean.

Conventions of the embedding:
* Python strings are modelled as `String` (reasoned about through their
  character list `String.toList`); Python `None`-able values as `Option`.
* Python `float` values flowing through the validators are exact decimals
  (the weight grammar `\d{1,4}([.,]\d)?` only produces one-decimal values),
  so they are modelled as `ℚ`.  `round(x, 1)` is modelled as `roundTo1`;
  the tie-breaking of Python's banker's rounding differs from `round` on ℚ
  only at exact midpoints, which none of the verified properties depend on.
* `datetime.date` is modelled as a year/month/day record `Date`; the
  difference `(a - b).days` of the proleptic Gregorian calendar is
  `a.toDays - b.toDays` with the standard civil-from-days formula.
* The relational store is modelled as an in-memory list of rows; SQL
  `ORDER BY` is modelled with `List.insertionSort`, `filter_by(...).first()`
  with `List.find?`.
-/

/-! ## Character and string helpers (Python `str.strip`, `re`) -/

/-- Python `str.strip()`: drop leading and trailing whitespace. -/
def stripChars (cs : List Char) : List Char :=
  ((cs.dropWhile Char.isWhitespace).reverse.dropWhile Char.isWhitespace).reverse

/-- Numeric value of a decimal digit character. -/
def digitVal (c : Char) : ℕ := c.toNat - '0'.toNat

/-- Decimal number denoted by a list of digit characters. -/
def digitsToNat (cs : List Char) : ℕ := cs.foldl (fun n c => 10 * n + digitVal c) 0

/-- The digit character for `n < 10`. -/
def digitChar (n : ℕ) : Char := Char.ofNat ('0'.toNat + n)

/-- Zero-padded two-digit rendering (`%02d` for values below 100). -/
def pad2 (n : ℕ) : List Char := [digitChar (n / 10), digitChar (n % 10)]

/-- Python `re.sub(r"\s+", " ", s)`: collapse each whitespace run to one space. -/
def collapseSpaces (cs : List Char) : List Char :=
  cs.foldr
    (fun c acc =>
      if c.isWhitespace then
        match acc with
        | ' ' :: _ => acc
        | _ => ' ' :: acc
      else c :: acc)
    []

/-! ## Dates (`datetime.date`, `strptime`/`strftime` with format `%d/%m/%y`) -/

/-- A proleptic Gregorian calendar date. -/
structure Date where
  year : ℕ
  month : ℕ
  day : ℕ
deriving DecidableEq

/-- Gregorian leap-year rule. -/
def isLeap (y : ℕ) : Bool := (y % 4 == 0 && y % 100 != 0) || y % 400 == 0

/-- Number of days of month `m` in year `y`. -/
def daysInMonth (y m : ℕ) : ℕ :=
  if m = 2 then (if isLeap y then 29 else 28)
  else if m = 4 ∨ m = 6 ∨ m = 9 ∨ m = 11 then 30
  else 31

/-- A calendar-valid date (what `datetime.date(y, m, d)` accepts). -/
def Date.valid (dt : Date) : Prop :=
  1 ≤ dt.month ∧ dt.month ≤ 12 ∧ 1 ≤ dt.day ∧ dt.day ≤ daysInMonth dt.year dt.month

instance (dt : Date) : Decidable dt.valid := by
  unfold Date.valid; infer_instance

/-- Day number of a date (standard civil-from-days formula, for years ≥ 1),
so that Python's `(a - b).days` is `a.toDays - b.toDays`. -/
def Date.toDays (dt : Date) : ℤ :=
  let y : ℕ := if dt.month ≤ 2 then dt.year - 1 else dt.year
  let m' : ℕ := if dt.month ≤ 2 then dt.month + 9 else dt.month - 3
  (365 * y + y / 4 - y / 100 + y / 400 + (153 * m' + 2) / 5 + dt.day : ℤ)

/-- Core of `strptime(s, "%d/%m/%y")` over the characters of the (stripped)
input: the day and month components are the maximal digit runs before the
slashes (1 or 2 digits, values 1–31 and 1–12 as in the `_strptime` regexes),
the year is exactly two digits windowed as `69-99 → 1900s`, `00-68 → 2000s`,
and `datetime.date` validates the day against the month length. -/
def parse_date_core (cs : List Char) : Option Date :=
  let ds := cs.takeWhile Char.isDigit
  match cs.drop ds.length with
  | '/' :: r1 =>
    let ms := r1.takeWhile Char.isDigit
    match r1.drop ms.length with
    | '/' :: ys =>
      if 1 ≤ ds.length ∧ ds.length ≤ 2 ∧ 1 ≤ ms.length ∧ ms.length ≤ 2
          ∧ ys.length = 2 ∧ ys.all Char.isDigit then
        let d := digitsToNat ds
        let m := digitsToNat ms
        let yy := digitsToNat ys
        if 1 ≤ d ∧ d ≤ 31 ∧ 1 ≤ m ∧ m ≤ 12 then
          let y := if 69 ≤ yy then 1900 + yy else 2000 + yy
          if d ≤ daysInMonth y m then some ⟨y, m, d⟩ else none
        else none
      else none
    | _ => none
  | _ => none

/-- `parse_date_ddmmyy` from `app.py`: strip, empty means "no date" (`None`),
otherwise strict `DD/MM/YY` parsing, `None` on failure. -/
def parse_date_ddmmyy (s : String) : Option Date :=
  let t := stripChars s.toList
  if t = [] then none else parse_date_core t

/-- `fmt_date` body for a present date: `strftime("%d/%m/%y")`. -/
def fmt_date_chars (dt : Date) : List Char :=
  pad2 dt.day ++ '/' :: pad2 dt.month ++ '/' :: pad2 (dt.year % 100)

/-- `fmt_date` from `app.py`: `d.strftime("%d/%m/%y") if d else ""`. -/
def fmt_date (d : Option Date) : String :=
  match d with
  | none => ""
  | some dt => String.mk (fmt_date_chars dt)

/-! ## Numeric parsing (`parse_weight_1d`, `round(x, 1)`) -/

/-- `round(q, 1)` on exact decimals: round `10 q` to the nearest integer
(`Rat.floor` keeps the definition kernel-computable), divide by 10. -/
def roundTo1 (q : ℚ) : ℚ := ((Rat.floor (q * 10 + 1 / 2) : ℤ) : ℚ) / 10

/-- `Rat.floor` agrees with the `FloorRing` floor. -/
theorem ratFloor_eq_intFloor (q : ℚ) : Rat.floor q = ⌊q⌋ :=
  le_antisymm (Int.le_floor.mpr (Rat.le_floor.mp le_rfl)) (Rat.le_floor.mpr (Int.floor_le q))

/-- `roundTo1` agrees with rounding `10 q` to the nearest integer. -/
theorem roundTo1_eq_round (q : ℚ) : roundTo1 q = ((round (q * 10) : ℤ) : ℚ) / 10 := by
  unfold roundTo1
  rw [ratFloor_eq_intFloor, round_eq]

/-- Rounding to one decimal is monotone. -/
theorem roundTo1_mono {a b : ℚ} (h : a ≤ b) : roundTo1 a ≤ roundTo1 b := by
  unfold roundTo1
  rw [ratFloor_eq_intFloor, ratFloor_eq_intFloor]
  have hf : ⌊a * 10 + 1 / 2⌋ ≤ ⌊b * 10 + 1 / 2⌋ := Int.floor_le_floor (by linarith)
  have : ((⌊a * 10 + 1 / 2⌋ : ℤ) : ℚ) ≤ ((⌊b * 10 + 1 / 2⌋ : ℤ) : ℚ) := by exact_mod_cast hf
  linarith

/-- Full match of `WEIGHT_RE = ^\d{1,4}([.,]\d)?$`. -/
def isWeightShape (cs : List Char) : Bool :=
  let intp := cs.takeWhile Char.isDigit
  (decide (1 ≤ intp.length ∧ intp.length ≤ 4)) &&
    (match cs.drop intp.length with
     | [] => true
     | [sep, d] => (sep == '.' || sep == ',') && d.isDigit
     | _ => false)

/-- Exact value denoted by a `WEIGHT_RE` match (after `, → .`). -/
def weight_value (cs : List Char) : ℚ :=
  let intp := cs.takeWhile Char.isDigit
  match cs.drop intp.length with
  | [_, d] => (digitsToNat intp : ℚ) + (digitVal d : ℚ) / 10
  | _ => (digitsToNat intp : ℚ)

/-- `parse_weight_1d` from `app.py`: strip; empty → `None`; must match
`WEIGHT_RE`; comma normalized to dot; rounded to one decimal. -/
def parse_weight_1d (s : String) : Option ℚ :=
  let raw := stripChars s.toList
  if raw = [] then none
  else if ¬ isWeightShape raw then none
  else some (roundTo1 (weight_value raw))

/-! ## Tag and text validators -/

/-- `clean_tag` from `app.py`: strip; empty → `None`; must match
`TAG_RE = ^[0-9 ]+$`; whitespace runs collapsed to one space. -/
def clean_tag (tag : String) : Option String :=
  let raw := stripChars tag.toList
  if raw = [] then none
  else if ¬ raw.all (fun c => c.isDigit || c == ' ') then none
  else some (String.mk (collapseSpaces raw))

/-- `limit_len` from `app.py`: strip; empty → `None`; hard truncation. -/
def limit_len (s : String) (maxlen : ℕ) : Option String :=
  let t := stripChars s.toList
  if t = [] then none else some (String.mk (t.take maxlen))

/-- Email normalization used by the handlers: `.strip().lower()`. -/
def normEmail (s : String) : String :=
  String.mk ((stripChars s.toList).map Char.toLower)

/-! ## Domain entities -/

/-- `DEFAULT_DAILY_GAIN = 0.6` kg/day. -/
def DEFAULT_DAILY_GAIN : ℚ := 0.6

/-- Fixed breed dropdown list `BREED_OPTIONS`. -/
def BREED_OPTIONS : List String :=
  ["Aberdeen Angus", "Hereford", "Braford", "Brangus", "Holando", "Criollo", "Otra"]

/-- Row of the `category` table.  `daily_gain_kg` is a non-nullable column
(`nullable=False` with default `DEFAULT_DAILY_GAIN`), so it is a plain `ℚ`;
the dead `is not None` guard of `get_gain` therefore has no model counterpart. -/
structure Category where
  id : ℕ
  name : String
  is_active : Bool
  daily_gain_kg : ℚ
deriving DecidableEq

/-- Row of the `user` table.  `password_hash` is nullable (`None` until the
setup flow configures it). -/
structure User where
  id : ℕ
  email : String
  password_hash : Option String
  is_admin : Bool
  is_active_flag : Bool
deriving DecidableEq

/-- Row of the `animal` table (the server-set `created_at`/`updated_at`
timestamps carry no verified behavior and are omitted). -/
structure Animal where
  id : ℕ
  tag_current : String
  tag_previous : Option String
  weight : Option ℚ
  weigh_date : Option Date
  est_weight_today : Option ℚ
  comment : Option String
  origin : Option String
  category : Option String
  read_date : Option Date
  last_seen : Option Date
  birth_date : Option Date
  sex : Option String
  breed : Option String
  diagnosis : Option String
  lot : Option String
deriving DecidableEq

/-- Python truthiness of an optional string (`None` and `""` are falsy). -/
def pw_nonempty : Option String → Bool
  | none => false
  | some s => s != ""

/-- Modelled from the spec: the password-hashing collaborator
(`werkzeug.security.generate_password_hash`) is an external primitive, not
reimplemented (spec §6).  Only the properties used by the handlers are
modelled: the hash is a non-empty string and is verifiable against the
original plaintext. -/
def generate_password_hash (password : String) : String := "pbkdf2:" ++ password

/-- Modelled from the spec: verification side of the hashing collaborator. -/
def check_password_hash (h : String) (password : String) : Bool :=
  h == generate_password_hash password

/-- `User.check_password`: falsy hash (absent or empty) never verifies. -/
def User.check_password (u : User) (password : String) : Bool :=
  match u.password_hash with
  | none => false
  | some h => if h = "" then false else check_password_hash h password

/-- `Animal.compute_estimated_weight(daily_gain_kg)`: `None` when `weight`
is falsy (absent or `0.0`) or `weigh_date` is absent, else
`round(weight + max(0, (today - weigh_date).days) * daily_gain_kg, 1)`. -/
def compute_estimated_weight (a : Animal) (today : Date) (daily_gain_kg : ℚ) : Option ℚ :=
  match a.weight, a.weigh_date with
  | some w, some wd =>
    if w = 0 then none
    else
      let days : ℤ := today.toDays - wd.toDays
      some (roundTo1 (w + ((max 0 days : ℤ) : ℚ) * daily_gain_kg))
  | _, _ => none

/-- `get_gain(cat_name)`: default for a falsy name or an unknown name,
otherwise the `daily_gain_kg` of the first `category` row with that name
(the query does not filter on `is_active`). -/
def get_gain (cats : List Category) (cat_name : Option String) : ℚ :=
  match cat_name with
  | none => DEFAULT_DAILY_GAIN
  | some s =>
    if s = "" then DEFAULT_DAILY_GAIN
    else
      match cats.find? (fun c => c.name == s) with
      | some c => c.daily_gain_kg
      | none => DEFAULT_DAILY_GAIN

/-! ## `ORDER BY` keys -/

/-- `ORDER BY name ASC` for categories. -/
def catNameLe (a b : Category) : Prop := a.name ≤ b.name

instance : DecidableRel catNameLe :=
  fun a b => inferInstanceAs (Decidable (a.name ≤ b.name))

instance : IsTotal Category catNameLe := ⟨fun a b => le_total a.name b.name⟩

instance : IsTrans Category catNameLe := ⟨fun _ _ _ h1 h2 => le_trans h1 h2⟩

/-- `ORDER BY is_active DESC, name ASC` used by the category list screen. -/
def catListLe (a b : Category) : Prop :=
  if a.is_active = b.is_active then a.name ≤ b.name else a.is_active = true

instance : DecidableRel catListLe := fun a b => by
  unfold catListLe; infer_instance

instance : IsTotal Category catListLe := by
  constructor
  intro a b
  unfold catListLe
  rcases Bool.eq_false_or_eq_true a.is_active with ha | ha <;>
    rcases Bool.eq_false_or_eq_true b.is_active with hb | hb <;>
      simp [ha, hb] <;> exact le_total _ _

instance : IsTrans Category catListLe := by
  constructor
  intro a b c h1 h2
  unfold catListLe at *
  rcases Bool.eq_false_or_eq_true a.is_active with ha | ha <;>
    rcases Bool.eq_false_or_eq_true b.is_active with hb | hb <;>
      rcases Bool.eq_false_or_eq_true c.is_active with hc | hc <;>
        simp_all <;> exact le_trans h1 h2

/-- `ORDER BY id ASC` for users. -/
def userIdLe (a b : User) : Prop := a.id ≤ b.id

instance : DecidableRel userIdLe :=
  fun a b => inferInstanceAs (Decidable (a.id ≤ b.id))

instance : IsTotal User userIdLe := ⟨fun a b => le_total a.id b.id⟩

instance : IsTrans User userIdLe := ⟨fun _ _ _ h1 h2 => le_trans h1 h2⟩

/-- `Category.query.order_by(Category.name.asc())`. -/
def sortCatsByName (cats : List Category) : List Category :=
  List.insertionSort catNameLe cats

/-- `active_category_names()` from `app.py`. -/
def active_category_names (cats : List Category) : List String :=
  ((cats.filter (·.is_active)).insertionSort catNameLe).map (·.name)

/-- `all_category_names()` from `app.py`. -/
def all_category_names (cats : List Category) : List String :=
  (sortCatsByName cats).map (·.name)

/-- The category list screen's query:
`Category.query.order_by(Category.is_active.desc(), Category.name.asc())`. -/
def categories_route_list (cats : List Category) : List Category :=
  List.insertionSort catListLe cats

/-! ## Animal create handler (`_validate_and_collect_animal_form`, `animals_new`) -/

/-- Raw text fields of the animal form (a missing field and an empty field
are indistinguishable to the handler, so both are modelled as `""`). -/
structure AnimalForm where
  tag_current : String
  tag_previous : String
  weight : String
  est_weight_today : String
  weigh_date : String
  read_date : String
  last_seen : String
  birth_date : String
  comment : String
  origin : String
  diagnosis : String
  lot : String
  sex : String
  category : String
  breed : String
deriving DecidableEq

/-- Validated field values collected by `_validate_and_collect_animal_form`. -/
structure AnimalData where
  tag_current : String
  tag_previous : Option String
  weight : Option ℚ
  weigh_date : Option Date
  est_weight_today : Option ℚ
  comment : Option String
  origin : Option String
  category : Option String
  read_date : Option Date
  last_seen : Option Date
  birth_date : Option Date
  sex : Option String
  breed : Option String
  diagnosis : Option String
  lot : Option String
deriving DecidableEq

/-- The sex field: `.strip().upper()`, kept only when `M` or `H`. -/
def sexVal (s : String) : Option String :=
  let t := String.mk ((stripChars s.toList).map Char.toUpper)
  if t = "M" ∨ t = "H" then some t else none

/-- `_validate_and_collect_animal_form(for_edit, current_category)`: returns
the first validation error, or the collected data. -/
def validate_animal_form (cats : List Category) (f : AnimalForm)
    (for_edit : Bool) (current_category : Option String) : Except String AnimalData :=
  match clean_tag f.tag_current with
  | none => .error "La caravana (actual) es obligatoria y solo admite dígitos y espacios."
  | some tagc =>
    let tagp := if f.tag_previous ≠ "" then clean_tag f.tag_previous else none
    let weight := parse_weight_1d f.weight
    let est := parse_weight_1d f.est_weight_today
    let wd := parse_date_ddmmyy f.weigh_date
    let rd := parse_date_ddmmyy f.read_date
    let ls := parse_date_ddmmyy f.last_seen
    let bd := parse_date_ddmmyy f.birth_date
    if f.weigh_date ≠ "" ∧ wd = none then .error "Fecha de pesaje inválida (DD/MM/AA)."
    else if f.read_date ≠ "" ∧ rd = none then .error "Fecha de lectura inválida (DD/MM/AA)."
    else if f.last_seen ≠ "" ∧ ls = none then .error "Última vez inválida (DD/MM/AA)."
    else if f.birth_date ≠ "" ∧ bd = none then .error "Fecha de nacimiento inválida (DD/MM/AA)."
    else
      let comment := limit_len f.comment 30
      let origin := limit_len f.origin 30
      let diagnosis := limit_len f.diagnosis 10
      let lot := limit_len f.lot 20
      let sex := sexVal f.sex
      let cat := String.mk (stripChars f.category.toList)
      if cat ≠ "" ∧ cat ∉ active_category_names cats ∧
          ¬ (for_edit = true ∧ current_category = some cat ∧ cat ∈ all_category_names cats) then
        .error "Categoría inválida."
      else
        let breed := String.mk (stripChars f.breed.toList)
        if breed ≠ "" ∧ breed ∉ BREED_OPTIONS then .error "Raza inválida."
        else
          .ok { tag_current := tagc, tag_previous := tagp, weight := weight,
                weigh_date := wd, est_weight_today := est, comment := comment,
                origin := origin, category := if cat = "" then none else some cat,
                read_date := rd, last_seen := ls, birth_date := bd, sex := sex,
                breed := if breed = "" then none else some breed,
                diagnosis := diagnosis, lot := lot }

/-- Fresh surrogate key for an insert (autoincrement: max id + 1). -/
def freshAnimalId (table : List Animal) : ℕ :=
  (table.map (·.id)).foldr max 0 + 1

/-- The `Animal(**data)` constructor call of `animals_new`. -/
def mkAnimal (id : ℕ) (d : AnimalData) : Animal :=
  { id := id, tag_current := d.tag_current, tag_previous := d.tag_previous,
    weight := d.weight, weigh_date := d.weigh_date,
    est_weight_today := d.est_weight_today, comment := d.comment,
    origin := d.origin, category := d.category, read_date := d.read_date,
    last_seen := d.last_seen, birth_date := d.birth_date, sex := d.sex,
    breed := d.breed, diagnosis := d.diagnosis, lot := d.lot }

/-- The `if a.est_weight_today is None: ...` block of `animals_new`. -/
def finalizeAnimal (a : Animal) (cats : List Category) (today : Date) : Animal :=
  if a.est_weight_today = none then
    match compute_estimated_weight a today (get_gain cats a.category) with
    | some v => { a with est_weight_today := some v }
    | none => a
  else a

/-- POST branch of `animals_new`: validate, check `tag_current` uniqueness
against the whole table, insert on success.  Result: updated table and the
error message, `none` meaning success. -/
def animals_new_post (table : List Animal) (cats : List Category) (f : AnimalForm)
    (today : Date) : List Animal × Option String :=
  match validate_animal_form cats f false none with
  | .error e => (table, some e)
  | .ok d =>
    if (table.find? (fun a => a.tag_current == d.tag_current)).isSome then
      (table, some "Ya existe un animal con esa caravana.")
    else
      (table ++ [finalizeAnimal (mkAnimal (freshAnimalId table) d) cats today], none)

/-! ## User handlers (setup flow, login, user management) -/

/-- `User.query.filter_by(is_admin=True).order_by(User.id.asc()).first()`. -/
def firstAdmin (users : List User) : Option User :=
  (List.insertionSort userIdLe users).find? (·.is_admin)

/-- `admin_needs_password_setup()` from `app.py`. -/
def admin_needs_password_setup (users : List User) : Bool :=
  match firstAdmin users with
  | none => true
  | some a => !pw_nonempty a.password_hash

/-- The spec's `ADMIN_ROW_NO_PASSWORD` state: an admin row exists but its
(password-setup relevant, lowest-id) `password_hash` is null/empty. -/
def adminRowNoPassword (users : List User) : Bool :=
  match firstAdmin users with
  | none => false
  | some a => !pw_nonempty a.password_hash

/-- Fresh surrogate key for a user insert. -/
def freshUserId (users : List User) : ℕ :=
  (users.map (·.id)).foldr max 0 + 1

/-- The setup form (`email`, `password`). -/
structure SetupForm where
  email : String
  password : String
deriving DecidableEq

/-- Observable outcome of a `setup_admin` request. -/
inductive SetupOutcome where
  | redirectLoginGuard : SetupOutcome
  | renderForm : SetupOutcome
  | validationError : String → SetupOutcome
  | ok : String → SetupOutcome
deriving DecidableEq

/-- `existing.is_admin = True; if not existing.password_hash:
existing.set_password(password)` applied to the row with id `exid`. -/
def promote (users : List User) (exid : ℕ) (password : String) : List User :=
  users.map fun u =>
    if u.id = exid then
      { u with is_admin := true,
               password_hash :=
                 if pw_nonempty u.password_hash then u.password_hash
                 else some (generate_password_hash password) }
    else u

/-- `admin.email = email; admin.set_password(password)` applied to the row
with id `aid` (the placeholder-reuse branch of `setup_admin`). -/
def reuse_placeholder (users : List User) (aid : ℕ) (email password : String) : List User :=
  users.map fun u =>
    if u.id = aid then
      { u with email := email, password_hash := some (generate_password_hash password) }
    else u

/-- POST body of `setup_admin` after the guard: validation and the four
commit branches.  The `UNIQUE constraint failed` rollback paths are
unreachable in the model because each branch only writes an email that the
preceding `existing` lookup proved unused (or owned by the written row). -/
def setup_body (users : List User) (admin? : Option User) (f : SetupForm) :
    List User × SetupOutcome :=
  let email := normEmail f.email
  if email = "" ∨ f.password = "" then
    (users, .validationError "Email y contraseña son obligatorios.")
  else
    match admin?, users.find? (fun u => u.email == email) with
    | none, some ex =>
      (promote users ex.id f.password,
       .ok "Administrador configurado usando un usuario existente.")
    | none, none =>
      (users ++ [{ id := freshUserId users, email := email,
                   password_hash := some (generate_password_hash f.password),
                   is_admin := true, is_active_flag := true }],
       .ok "Administrador creado correctamente.")
    | some a, some ex =>
      if ex.id ≠ a.id then
        (if pw_nonempty a.password_hash then promote users ex.id f.password
         else (promote users ex.id f.password).filter (fun u => u.id != a.id),
         .ok "Administrador configurado promoviendo usuario existente.")
      else
        (reuse_placeholder users a.id email f.password,
         .ok "Administrador configurado correctamente.")
    | some a, none =>
      (reuse_placeholder users a.id email f.password,
       .ok "Administrador configurado correctamente.")

/-- The `setup_admin` route.  `form? = none` models a GET request (which
never writes); `some f` a POST submission.  The guard redirects to login
whenever the first admin row already has a truthy password hash. -/
def setup_admin_route (users : List User) (form? : Option SetupForm) :
    List User × SetupOutcome :=
  match firstAdmin users with
  | some a =>
    if pw_nonempty a.password_hash then (users, .redirectLoginGuard)
    else
      match form? with
      | none => (users, .renderForm)
      | some f => setup_body users (some a) f
  | none =>
    match form? with
    | none => (users, .renderForm)
    | some f => setup_body users none f

/-- Observable outcome of a `login` POST. -/
inductive LoginOutcome where
  | redirectSetup : LoginOutcome
  | success : LoginOutcome
  | invalid : LoginOutcome
deriving DecidableEq

/-- POST branch of `login`: redirected to setup while bootstrap is
incomplete; otherwise a session starts only for a matched, active user with
a truthy password hash that verifies the submitted password. -/
def login_post (users : List User) (email password : String) : LoginOutcome :=
  if admin_needs_password_setup users then .redirectSetup
  else
    match users.find? (fun u => u.email == normEmail email) with
    | some u =>
      if u.is_active_flag && pw_nonempty u.password_hash && u.check_password password then
        .success
      else .invalid
    | none => .invalid

/-- POST branch of `new_user` (`require_admin` is a session-level guard that
performs no table write, so it is not part of the table-state model). -/
def new_user_post (users : List User) (email password : String) (is_admin : Bool) :
    List User × Option String :=
  let em := normEmail email
  if em = "" ∨ password = "" then (users, some "Email y contraseña son obligatorios.")
  else if (users.find? (fun u => u.email == em)).isSome then
    (users, some "Ese email ya existe.")
  else
    (users ++ [{ id := freshUserId users, email := em,
                 password_hash := some (generate_password_hash password),
                 is_admin := is_admin, is_active_flag := true }], none)

/-- POST branch of `edit_user`: email uniqueness excludes the edited row;
the password is rehashed only when the submitted password is non-empty. -/
def edit_user_post (users : List User) (uid : ℕ) (email : String)
    (is_admin is_active : Bool) (pw : String) : List User × Option String :=
  match users.find? (fun u => u.id == uid) with
  | none => (users, some "No encontrado.")
  | some _ =>
    let em := normEmail email
    if em = "" then (users, some "Email es obligatorio.")
    else if (users.find? (fun u => u.email == em && u.id != uid)).isSome then
      (users, some "Ese email ya está en uso por otro usuario.")
    else
      (users.map fun u =>
        if u.id = uid then
          { u with email := em, is_admin := is_admin, is_active_flag := is_active,
                   password_hash :=
                     if pw ≠ "" then some (generate_password_hash pw)
                     else u.password_hash }
        else u, none)

/-- Modelled from the spec: `src/app.py` has no user-delete route (only
`/users`, `/users/new` and `/users/{id}/edit` exist in this iteration of the
app); spec §4.5 specifies the Delete contract — admin-only, and for User it
"refuses with a user-visible error if the target is the acting admin's own
account (self-deletion is never permitted)". -/
def delete_user (users : List User) (acting : User) (target_id : ℕ) :
    List User × Option String :=
  if ¬ acting.is_admin then (users, some "Se requiere usuario administrador.")
  else if target_id = acting.id then (users, some "No puede eliminar su propia cuenta.")
  else
    match users.find? (fun u => u.id == target_id) with
    | none => (users, some "No encontrado.")
    | some _ => (users.filter (fun u => u.id != target_id), none)

/-- The user-table-mutating operations supported by the application. -/
inductive Op where
  | setup : Option SetupForm → Op
  | newUser : String → String → Bool → Op
  | editUser : ℕ → String → Bool → Bool → String → Op
deriving DecidableEq

/-- Table transition of one operation. -/
def applyOp (users : List User) : Op → List User
  | .setup f? => (setup_admin_route users f?).1
  | .newUser email password adm => (new_user_post users email password adm).1
  | .editUser uid email adm act pw => (edit_user_post users uid email adm act pw).1

/-- Table transition of a sequence of operations. -/
def applyOps (users : List User) (ops : List Op) : List User :=
  ops.foldl applyOp users

/-! ## Support lemmas for the date round-trip -/

theorem dropWhile_eq_self_of {p : Char → Bool} {cs : List Char}
    (h : ∀ c ∈ cs, p c = false) : cs.dropWhile p = cs := by
  cases cs with
  | nil => rfl
  | cons c cs =>
    rw [List.dropWhile_cons, if_neg]
    simp [h c (List.mem_cons_self c cs)]

theorem stripChars_of_no_ws {cs : List Char}
    (h : ∀ c ∈ cs, c.isWhitespace = false) : stripChars cs = cs := by
  unfold stripChars
  rw [dropWhile_eq_self_of h, dropWhile_eq_self_of, List.reverse_reverse]
  intro c hc
  exact h c (List.mem_reverse.mp hc)

theorem digitChar_isDigit : ∀ k, k < 10 → (digitChar k).isDigit = true := by decide

theorem digitChar_not_ws : ∀ k, k < 10 → (digitChar k).isWhitespace = false := by decide

theorem digitVal_digitChar : ∀ k, k < 10 → digitVal (digitChar k) = k := by decide

theorem digitsToNat_pad2 {n : ℕ} (h : n < 100) : digitsToNat (pad2 n) = n := by
  have h1 : n / 10 < 10 := by omega
  have h2 : n % 10 < 10 := by omega
  unfold pad2 digitsToNat
  simp only [List.foldl_cons, List.foldl_nil, digitVal_digitChar _ h1, digitVal_digitChar _ h2]
  omega

theorem daysInMonth_le_31 (y m : ℕ) : daysInMonth y m ≤ 31 := by
  unfold daysInMonth
  repeat' split
  all_goals omega

/-- Parsing recovers any calendar-valid date in the two-digit-year window
from its `%d/%m/%y` rendering. -/
theorem parse_fmt_date_chars (dt : Date) (hv : dt.valid)
    (h1 : 1969 ≤ dt.year) (h2 : dt.year ≤ 2068) :
    parse_date_ddmmyy (String.mk (fmt_date_chars dt)) = some dt := by
  obtain ⟨y, m, d⟩ := dt
  obtain ⟨hm1, hm2, hd1, hd2⟩ := hv
  simp only at hm1 hm2 hd1 hd2 h1 h2
  have hd100 : d < 100 := lt_of_le_of_lt hd2 (lt_of_le_of_lt (daysInMonth_le_31 y m) (by omega))
  have hdq : d / 10 < 10 := by omega
  have hdr : d % 10 < 10 := by omega
  have hmq : m / 10 < 10 := by omega
  have hmr : m % 10 < 10 := by omega
  have hyq : y % 100 / 10 < 10 := by omega
  have hyr : y % 100 % 10 < 10 := by omega
  have hL : fmt_date_chars ⟨y, m, d⟩ =
      [digitChar (d / 10), digitChar (d % 10), '/', digitChar (m / 10), digitChar (m % 10),
       '/', digitChar (y % 100 / 10), digitChar (y % 100 % 10)] := by
    simp [fmt_date_chars, pad2]
  rw [hL]
  unfold parse_date_ddmmyy
  have htl : (String.mk
      [digitChar (d / 10), digitChar (d % 10), '/', digitChar (m / 10), digitChar (m % 10),
       '/', digitChar (y % 100 / 10), digitChar (y % 100 % 10)]).toList =
      [digitChar (d / 10), digitChar (d % 10), '/', digitChar (m / 10), digitChar (m % 10),
       '/', digitChar (y % 100 / 10), digitChar (y % 100 % 10)] := rfl
  rw [htl]
  rw [stripChars_of_no_ws ?nws]
  case nws =>
    intro c hc
    simp only [List.mem_cons, List.not_mem_nil, or_false] at hc
    rcases hc with h | h | h | h | h | h | h | h <;> subst h
    · exact digitChar_not_ws _ hdq
    · exact digitChar_not_ws _ hdr
    · decide
    · exact digitChar_not_ws _ hmq
    · exact digitChar_not_ws _ hmr
    · decide
    · exact digitChar_not_ws _ hyq
    · exact digitChar_not_ws _ hyr
  rw [if_neg (by simp)]
  unfold parse_date_core
  simp only [List.takeWhile_cons, digitChar_isDigit _ hdq, digitChar_isDigit _ hdr,
    digitChar_isDigit _ hmq, digitChar_isDigit _ hmr, digitChar_isDigit _ hyq,
    digitChar_isDigit _ hyr, show ('/').isDigit = false from rfl, if_true, if_false,
    Bool.false_eq_true, List.takeWhile_nil, List.length_cons, List.length_nil,
    List.drop_succ_cons, List.drop_zero, List.all_cons, List.all_nil, Bool.and_true]
  rw [if_pos (by simp)]
  have hdd : digitsToNat [digitChar (d / 10), digitChar (d % 10)] = d := by
    have := digitsToNat_pad2 hd100
    simpa [pad2] using this
  have hmm : digitsToNat [digitChar (m / 10), digitChar (m % 10)] = m := by
    have := digitsToNat_pad2 (show m < 100 by omega)
    simpa [pad2] using this
  have hyy : digitsToNat [digitChar (y % 100 / 10), digitChar (y % 100 % 10)] = y % 100 := by
    have := digitsToNat_pad2 (show y % 100 < 100 by omega)
    simpa [pad2] using this
  rw [hdd, hmm, hyy]
  rw [if_pos (by refine ⟨hd1, le_trans hd2 (daysInMonth_le_31 y m), hm1, hm2⟩)]
  have hwin : (if 69 ≤ y % 100 then 1900 + y % 100 else 2000 + y % 100) = y := by
    split <;> omega
  rw [hwin, if_pos hd2]

/-- Rendering of the claim's hypothesis "a well-formed `DD/MM/YY` date
string": the zero-padded `%d/%m/%y` rendering of a calendar-valid date (all
such strings denote years in the 1969–2068 window of the two-digit-year
rule, so exactly these strings parse successfully in zero-padded form). -/
def WellFormedDDMMYY (s : String) : Prop :=
  ∃ dt : Date, dt.valid ∧ 1969 ≤ dt.year ∧ dt.year ≤ 2068 ∧ s = fmt_date (some dt)

/-- C4: for every well-formed `DD/MM/YY` date string `d`,
`fmt_date (parse_date_ddmmyy d) = d` (parse/format round-trip), and
`parse_date_ddmmyy ""` is the "no date" value `none`, not an error. -/
theorem C4_thm :
    (∀ s : String, WellFormedDDMMYY s → fmt_date (parse_date_ddmmyy s) = s) ∧
    parse_date_ddmmyy "" = none := by
  constructor
  · rintro s ⟨dt, hv, h1, h2, rfl⟩
    show fmt_date (parse_date_ddmmyy (String.mk (fmt_date_chars dt))) = _
    rw [parse_fmt_date_chars dt hv h1 h2]
  · rfl

/-- C4 witness: the round trip evaluated at the concrete string `01/02/21`. -/
theorem C4_witness : fmt_date (parse_date_ddmmyy "01/02/21") = "01/02/21" :=
  C4_thm.1 "01/02/21" ⟨⟨2021, 2, 1⟩, by decide, by decide, by decide, by decide⟩

/-! ## Claims C1 and C8: the weight estimate -/

/-- An animal row with every nullable field absent. -/
def blankAnimal : Animal :=
  { id := 0, tag_current := "", tag_previous := none, weight := none, weigh_date := none,
    est_weight_today := none, comment := none, origin := none, category := none,
    read_date := none, last_seen := none, birth_date := none, sex := none, breed := none,
    diagnosis := none, lot := none }

/-- A stored weight of exactly `0.0` together with a weigh date. -/
def zeroWeightAnimal : Animal :=
  { blankAnimal with weight := some 0, weigh_date := some ⟨2024, 1, 1⟩ }

/-- C1 counterexample: the claim says that whenever both `weight` and
`weighDate` are present the result is `round(weight + max(0, days) * gainRate, 1)`,
but for a present weight equal to `0.0` the code returns "no estimate"
instead of the claimed `round(0 + 10 * 1, 1) = 10.0`. -/
theorem C1_cex :
    zeroWeightAnimal.weight = some 0 ∧
    zeroWeightAnimal.weigh_date = some ⟨2024, 1, 1⟩ ∧
    compute_estimated_weight zeroWeightAnimal ⟨2024, 1, 11⟩ 1 = none ∧
    compute_estimated_weight zeroWeightAnimal ⟨2024, 1, 11⟩ 1 ≠
      some (roundTo1 (0 + ((max 0 ((⟨2024, 1, 11⟩ : Date).toDays -
        (⟨2024, 1, 1⟩ : Date).toDays) : ℤ) : ℚ) * 1)) := by
  refine ⟨rfl, rfl, by decide, ?_⟩
  intro h
  rw [show compute_estimated_weight zeroWeightAnimal ⟨2024, 1, 11⟩ 1 = none by decide] at h
  exact Option.noConfusion h

/-- C1 (amended: a present weight of `0.0` is treated like an absent weight,
see C8): `compute_estimated_weight` returns "no estimate" when `weight` is
absent or zero or `weigh_date` is absent; otherwise it returns
`round(weight + max(0, today - weigh_date in days) * gainRate, 1)`, so for
any `weigh_date` equal to `today` or in the future the result equals the
1-decimal weight `roundTo1 w`, and for any non-negative gain rate the result
is never less than the 1-decimal weight. -/
theorem C1_thm : ∀ (a : Animal) (today : Date) (g : ℚ),
    ((a.weight = none ∨ a.weight = some 0 ∨ a.weigh_date = none) →
      compute_estimated_weight a today g = none) ∧
    (∀ w wd, a.weight = some w → w ≠ 0 → a.weigh_date = some wd →
      compute_estimated_weight a today g
        = some (roundTo1 (w + ((max 0 (today.toDays - wd.toDays) : ℤ) : ℚ) * g)) ∧
      (today.toDays ≤ wd.toDays →
        compute_estimated_weight a today g = some (roundTo1 w)) ∧
      (0 ≤ g → ∀ r, compute_estimated_weight a today g = some r → roundTo1 w ≤ r)) := by
  intro a today g
  constructor
  · intro h
    unfold compute_estimated_weight
    rcases hw : a.weight with _ | w <;> rcases hd : a.weigh_date with _ | wd <;> try rfl
    have hw0 : w = 0 := by
      rcases h with h | h | h
      · rw [hw] at h; exact Option.noConfusion h
      · rw [hw] at h; injection h
      · rw [hd] at h; exact Option.noConfusion h
    simp [hw0]
  · intro w wd hw hw0 hwd
    have hc : compute_estimated_weight a today g
        = some (roundTo1 (w + ((max 0 (today.toDays - wd.toDays) : ℤ) : ℚ) * g)) := by
      unfold compute_estimated_weight
      rw [hw, hwd]
      simp only [if_neg hw0]
    refine ⟨hc, ?_, ?_⟩
    · intro hle
      rw [hc]
      have hmax : max (0 : ℤ) (today.toDays - wd.toDays) = 0 := max_eq_left (by omega)
      rw [hmax]
      norm_num
    · intro hg r hr
      rw [hc] at hr
      have hcast : (0 : ℚ) ≤ ((max 0 (today.toDays - wd.toDays) : ℤ) : ℚ) := by
        exact_mod_cast le_max_left 0 (today.toDays - wd.toDays)
      have hle : w ≤ w + ((max 0 (today.toDays - wd.toDays) : ℤ) : ℚ) * g := by
        nlinarith [mul_nonneg hcast hg]
      injection hr with hr
      rw [← hr]
      exact roundTo1_mono hle

/-- An animal weighed at 500 kg ten days before the reference day. -/
def weighedAnimal : Animal :=
  { blankAnimal with weight := some 500, weigh_date := some ⟨2024, 1, 1⟩ }

/-- C1 witness: the amended theorem applied at a concrete animal. -/
theorem C1_witness :
    compute_estimated_weight weighedAnimal ⟨2024, 1, 11⟩ 0.6
      = some (roundTo1 (500 + ((max 0 ((⟨2024, 1, 11⟩ : Date).toDays -
        (⟨2024, 1, 1⟩ : Date).toDays) : ℤ) : ℚ) * 0.6)) :=
  ((C1_thm weighedAnimal ⟨2024, 1, 11⟩ 0.6).2 500 ⟨2024, 1, 1⟩ rfl (by norm_num) rfl).1

/-- C8: a stored weight of exactly `0.0` yields "no estimate" even when a
weigh date is present, because the absence test `not self.weight` is Python
truthiness rather than a `None` check. -/
theorem C8_thm : ∀ (a : Animal) (today : Date) (g : ℚ),
    a.weight = some 0 → compute_estimated_weight a today g = none := by
  intro a today g h
  unfold compute_estimated_weight
  rw [h]
  cases a.weigh_date with
  | none => rfl
  | some wd => simp

/-- C8 witness: the zero-weight animal (weigh date present) evaluated. -/
theorem C8_witness : compute_estimated_weight zeroWeightAnimal ⟨2024, 5, 1⟩ 2 = none :=
  C8_thm zeroWeightAnimal ⟨2024, 5, 1⟩ 2 rfl

/-! ## Claim C2: gain-rate resolution -/

theorem find?_name_unique {cats : List Category} {s : String} {c : Category}
    (hu : cats.Pairwise (fun a b => a.name ≠ b.name)) (hc : c ∈ cats) (hn : c.name = s) :
    cats.find? (fun x => x.name == s) = some c := by
  induction cats with
  | nil => cases hc
  | cons a t ih =>
    rcases List.mem_cons.mp hc with rfl | hmem
    · exact List.find?_cons_of_pos t (by simpa using hn)
    · have hne : a.name ≠ s := fun hEq =>
        ((List.pairwise_cons.mp hu).1 c hmem) (hEq.trans hn.symm)
      rw [List.find?_cons_of_neg t (by simpa using hne)]
      exact ih (List.pairwise_cons.mp hu).2 hmem

/-- An inactive category row with a non-default gain. -/
def inactiveCat : Category := { id := 1, name := "X", is_active := false, daily_gain_kg := 1 }

/-- C2 counterexample: the claim says an inactive matching category resolves
to the default `0.6`, but `get_gain` does not filter on `is_active`: the
inactive category's own `daily_gain_kg = 1` is returned. -/
theorem C2_cex :
    inactiveCat.is_active = false ∧
    get_gain [inactiveCat] (some "X") = 1 ∧
    (1 : ℚ) ≠ DEFAULT_DAILY_GAIN := by
  refine ⟨rfl, by decide, ?_⟩
  unfold DEFAULT_DAILY_GAIN
  norm_num

/-- C2 (amended: the active state of the matching category is irrelevant):
the resolved gain rate is the fixed default `0.6` when the name is
empty/absent or no category row bears that name; otherwise it is the
matching row's `daily_gain_kg`, whether or not that row is active. -/
theorem C2_thm : ∀ (cats : List Category) (cat_name : Option String),
    ((cat_name = none ∨ cat_name = some "") → get_gain cats cat_name = DEFAULT_DAILY_GAIN) ∧
    (∀ s, cat_name = some s → s ≠ "" → (∀ c ∈ cats, c.name ≠ s) →
      get_gain cats cat_name = DEFAULT_DAILY_GAIN) ∧
    (∀ s c, cat_name = some s → s ≠ "" →
      cats.Pairwise (fun a b => a.name ≠ b.name) → c ∈ cats → c.name = s →
      get_gain cats cat_name = c.daily_gain_kg) := by
  intro cats cat_name
  refine ⟨?_, ?_, ?_⟩
  · rintro (rfl | rfl)
    · rfl
    · simp [get_gain]
  · rintro s rfl hs hnone
    show (if s = "" then DEFAULT_DAILY_GAIN else _) = DEFAULT_DAILY_GAIN
    rw [if_neg hs, List.find?_eq_none.mpr fun x hx => by simpa using hnone x hx]
  · rintro s c rfl hs hu hc hn
    show (if s = "" then DEFAULT_DAILY_GAIN else _) = c.daily_gain_kg
    rw [if_neg hs, find?_name_unique hu hc hn]

/-- An active category row with a non-default gain. -/
def activeCat : Category := { id := 2, name := "Y", is_active := true, daily_gain_kg := 2 }

/-- C2 witness: the amended theorem applied at a one-row table. -/
theorem C2_witness : get_gain [activeCat] (some "Y") = activeCat.daily_gain_kg :=
  (C2_thm [activeCat] (some "Y")).2.2 "Y" activeCat rfl (by decide) (by simp) (by simp) rfl

/-! ## Claim C6: category list ordering -/

/-- C6 counterexample: with an inactive `A` and an active `B` in the table,
the list operation returns `[B, A]`, which is not ordered by name
ascending — `is_active` descending is the leading key. -/
theorem C6_cex :
    (categories_route_list [⟨1, "A", false, 1⟩, ⟨2, "B", true, 1⟩]).map (·.name)
      = ["B", "A"] ∧
    ¬ List.Pairwise (fun x y : String => x ≤ y) ["B", "A"] := by
  constructor
  · decide
  · intro hp
    have h := (List.pairwise_cons.mp hp).1 "A" (by simp)
    rw [String.le_iff_toList_le] at h
    exact absurd h (by decide)

/-- C6 (amended: the category list operation orders by `is_active`
descending and then by name ascending, not by name alone): for every state
of the category table it returns a permutation of the table sorted by that
two-part key. -/
theorem C6_thm : ∀ (cats : List Category),
    List.Perm (categories_route_list cats) cats ∧
    List.Sorted catListLe (categories_route_list cats) := by
  intro cats
  exact ⟨List.perm_insertionSort catListLe cats, List.sorted_insertionSort catListLe cats⟩

/-! ## Claim C7: user self-deletion (spec-modelled) -/

/-- C7: for every authenticated admin, deleting the admin's own user id is
refused with a user-visible error and leaves the user table unchanged. -/
theorem C7_thm : ∀ (users : List User) (acting : User),
    acting.is_admin = true →
    (delete_user users acting acting.id).1 = users ∧
    (delete_user users acting acting.id).2 ≠ none := by
  intro users acting h
  unfold delete_user
  simp [h]

/-- An admin user row. -/
def adminUser : User := ⟨1, "adm@x", some "h", true, true⟩

/-- C7 witness: self-deletion refused at a concrete one-row table. -/
theorem C7_witness :
    (delete_user [adminUser] adminUser adminUser.id).1 = [adminUser] ∧
    (delete_user [adminUser] adminUser adminUser.id).2 ≠ none :=
  C7_thm [adminUser] adminUser rfl

/-! ## Claim C10: deactivated users cannot log in -/

/-- C10: a login submission whose email matches a user row with
`is_active_flag = False` never authenticates, whatever the password. -/
theorem C10_thm : ∀ (users : List User) (email password : String) (u : User),
    users.find? (fun v => v.email == normEmail email) = some u →
    u.is_active_flag = false →
    login_post users email password ≠ LoginOutcome.success := by
  intro users email password u hf ha
  unfold login_post
  split
  · intro h
    exact LoginOutcome.noConfusion h
  · rw [hf]
    simp [ha]

/-- A deactivated user row holding the correct password hash. -/
def inactiveUser : User := ⟨1, "a@x", some (generate_password_hash "p"), true, false⟩

/-- C10 witness: the matched user's stored hash verifies the submitted
password, yet login is refused because the user is deactivated. -/
theorem C10_witness :
    inactiveUser.check_password "p" = true ∧
    login_post [inactiveUser] "a@x" "p" ≠ LoginOutcome.success :=
  ⟨by decide, C10_thm [inactiveUser] "a@x" "p" inactiveUser (by decide) rfl⟩

/-! ## Claim C3: duplicate tags on animal creation -/

deriving instance DecidableEq for Except

theorem validate_ok_tag {cats : List Category} {f : AnimalForm} {fe : Bool}
    {cc : Option String} {d : AnimalData}
    (h : validate_animal_form cats f fe cc = .ok d) :
    clean_tag f.tag_current = some d.tag_current := by
  unfold validate_animal_form at h
  cases hct : clean_tag f.tag_current with
  | none =>
    rw [hct] at h
    exact Except.noConfusion h
  | some tagc =>
    rw [hct] at h
    simp only [] at h
    repeat' split at h
    all_goals first
      | exact Except.noConfusion h
      | (injection h with h2; simp [hct, ← h2])

theorem finalizeAnimal_tag (a : Animal) (cats : List Category) (t : Date) :
    (finalizeAnimal a cats t).tag_current = a.tag_current := by
  unfold finalizeAnimal
  split
  · split <;> rfl
  · rfl

theorem animals_new_post_error {table : List Animal} {cats : List Category}
    {f : AnimalForm} {t : Date} {e : String}
    (hv : validate_animal_form cats f false none = .error e) :
    animals_new_post table cats f t = (table, some e) := by
  unfold animals_new_post
  rw [hv]

theorem animals_new_post_dup {table : List Animal} {cats : List Category}
    {f : AnimalForm} {t : Date} {d : AnimalData}
    (hv : validate_animal_form cats f false none = .ok d)
    (hf : (table.find? (fun a => a.tag_current == d.tag_current)).isSome = true) :
    animals_new_post table cats f t
      = (table, some "Ya existe un animal con esa caravana.") := by
  unfold animals_new_post
  rw [hv]
  show (if (table.find? (fun a => a.tag_current == d.tag_current)).isSome = true
      then _ else _) = _
  rw [if_pos hf]

theorem animals_new_post_insert {table : List Animal} {cats : List Category}
    {f : AnimalForm} {t : Date} {d : AnimalData}
    (hv : validate_animal_form cats f false none = .ok d)
    (hf : (table.find? (fun a => a.tag_current == d.tag_current)).isSome = false) :
    animals_new_post table cats f t
      = (table ++ [finalizeAnimal (mkAnimal (freshAnimalId table) d) cats t], none) := by
  unfold animals_new_post
  rw [hv]
  show (if (table.find? (fun a => a.tag_current == d.tag_current)).isSome = true
      then _ else _) = _
  rw [if_neg (by simp [hf])]

theorem animals_new_post_success {table table1 : List Animal} {cats : List Category}
    {f : AnimalForm} {t : Date}
    (h : animals_new_post table cats f t = (table1, none)) :
    ∃ d, validate_animal_form cats f false none = .ok d ∧
      table1 = table ++ [finalizeAnimal (mkAnimal (freshAnimalId table) d) cats t] := by
  cases hv : validate_animal_form cats f false none with
  | error e =>
    have h2 := (@animals_new_post_error table cats f t e hv).symm.trans h
    injection h2 with h3 h4
    exact Option.noConfusion h4
  | ok d =>
    cases hf : (table.find? (fun a => a.tag_current == d.tag_current)).isSome with
    | true =>
      have h2 := (@animals_new_post_dup table cats f t d hv hf).symm.trans h
      injection h2 with h3 h4
      exact Option.noConfusion h4
    | false =>
      have h2 := (@animals_new_post_insert table cats f t d hv hf).symm.trans h
      injection h2 with h3 h4
      exact ⟨d, rfl, h3.symm⟩

/-- C3 (amended: when the second request carries some other invalid field,
its failure message is that field's error rather than the uniqueness
conflict): once a create request with normalized tag `t` has succeeded,
every further create request whose raw tag also normalizes to `t` fails and
leaves the animal table unchanged, and whenever that second request passes
field validation its error is precisely the uniqueness conflict. -/
theorem C3_thm : ∀ (table table1 : List Animal) (cats : List Category)
    (f1 f2 : AnimalForm) (t1 t2 : Date),
    animals_new_post table cats f1 t1 = (table1, none) →
    clean_tag f2.tag_current = clean_tag f1.tag_current →
    (animals_new_post table1 cats f2 t2).1 = table1 ∧
    (animals_new_post table1 cats f2 t2).2 ≠ none ∧
    (∀ d2, validate_animal_form cats f2 false none = .ok d2 →
      animals_new_post table1 cats f2 t2
        = (table1, some "Ya existe un animal con esa caravana.")) := by
  intro table table1 cats f1 f2 t1 t2 hsucc htag
  obtain ⟨d1, hv1, htab⟩ := animals_new_post_success hsucc
  have htag1 : clean_tag f1.tag_current = some d1.tag_current := validate_ok_tag hv1
  have hmem : ∀ d2, validate_animal_form cats f2 false none = .ok d2 →
      (table1.find? (fun a => a.tag_current == d2.tag_current)).isSome = true := by
    intro d2 hv2
    have htag2 : clean_tag f2.tag_current = some d2.tag_current := validate_ok_tag hv2
    have heq : d2.tag_current = d1.tag_current := by
      rw [htag1, htag2] at htag
      injection htag
    rw [List.find?_isSome]
    refine ⟨finalizeAnimal (mkAnimal (freshAnimalId table) d1) cats t1, ?_, ?_⟩
    · rw [htab]
      exact List.mem_append_right _ (List.mem_singleton.mpr rfl)
    · rw [finalizeAnimal_tag]
      simp [mkAnimal, heq]
  cases hv2 : validate_animal_form cats f2 false none with
  | error e =>
    rw [@animals_new_post_error table1 cats f2 t2 e hv2]
    refine ⟨rfl, by simp, fun d2 hd2 => ?_⟩
    exact Except.noConfusion hd2
  | ok d2 =>
    rw [@animals_new_post_dup table1 cats f2 t2 d2 hv2 (hmem d2 hv2)]
    exact ⟨rfl, by simp, fun d2m hd2m => rfl⟩

/-- The animal form with every field left empty. -/
def blankAnimalForm : AnimalForm :=
  { tag_current := "", tag_previous := "", weight := "", est_weight_today := "",
    weigh_date := "", read_date := "", last_seen := "", birth_date := "",
    comment := "", origin := "", diagnosis := "", lot := "", sex := "",
    category := "", breed := "" }

/-- First create request: raw tag `12 34`. -/
def formFirst : AnimalForm := { blankAnimalForm with tag_current := "12 34" }

/-- Second create request: tag normalizing to `12 34` but an invalid
weigh date. -/
def formBadDate : AnimalForm :=
  { blankAnimalForm with tag_current := "12  34", weigh_date := "99/99/99" }

/-- Second create request: tag normalizing to `12 34`, all fields valid. -/
def formSecond : AnimalForm := { blankAnimalForm with tag_current := " 12  34 " }

/-- The animal table after the first create request succeeded. -/
def tableAfterFirst : List Animal := (animals_new_post [] [] formFirst ⟨2024, 1, 1⟩).1

/-- C3 counterexample: both raw tags normalize to `12 34` and the first
request succeeded, yet the second request fails with the weigh-date
validation error, not the claimed uniqueness-conflict error (the table is
still unchanged). -/
theorem C3_cex :
    clean_tag formBadDate.tag_current = clean_tag formFirst.tag_current ∧
    animals_new_post [] [] formFirst ⟨2024, 1, 1⟩ = (tableAfterFirst, none) ∧
    animals_new_post tableAfterFirst [] formBadDate ⟨2024, 1, 1⟩
      = (tableAfterFirst, some "Fecha de pesaje inválida (DD/MM/AA).") ∧
    some "Fecha de pesaje inválida (DD/MM/AA)."
      ≠ some "Ya existe un animal con esa caravana." := by
  exact ⟨by decide, by decide, by decide, by decide⟩

/-- The data collected from `formSecond`. -/
def dataSecond : AnimalData :=
  { tag_current := "12 34", tag_previous := none, weight := none, weigh_date := none,
    est_weight_today := none, comment := none, origin := none, category := none,
    read_date := none, last_seen := none, birth_date := none, sex := none,
    breed := none, diagnosis := none, lot := none }

/-- C3 witness: a fully valid duplicate-tag request hits precisely the
uniqueness conflict and writes nothing. -/
theorem C3_witness :
    animals_new_post tableAfterFirst [] formSecond ⟨2024, 2, 2⟩
      = (tableAfterFirst, some "Ya existe un animal con esa caravana.") :=
  (C3_thm [] tableAfterFirst [] formFirst formSecond ⟨2024, 1, 1⟩ ⟨2024, 2, 2⟩
      (by decide) (by decide)).2.2 dataSecond (by decide)

/-! ## Claims C5 and C9: the bootstrap/setup state machine -/

theorem gen_pw_nonempty (p : String) :
    pw_nonempty (some (generate_password_hash p)) = true := by
  simp only [pw_nonempty, generate_password_hash, bne_iff_ne, ne_eq]
  intro hEq
  have hlen := congrArg String.length hEq
  rw [String.length_append, show "pbkdf2:".length = 7 from rfl,
    show "".length = 0 from rfl] at hlen
  omega

theorem firstAdmin_mem {users : List User} {a : User} (h : firstAdmin users = some a) :
    a ∈ users :=
  ((List.perm_insertionSort userIdLe users).mem_iff).mp (List.mem_of_find?_eq_some h)

theorem firstAdmin_is_admin {users : List User} {a : User}
    (h : firstAdmin users = some a) : a.is_admin = true :=
  List.find?_some h

theorem mem_id_unique {users : List User} {u v : User}
    (hu : users.Pairwise (fun a b => a.id ≠ b.id)) (h1 : u ∈ users) (h2 : v ∈ users)
    (hid : u.id = v.id) : u = v := by
  induction users with
  | nil => cases h1
  | cons a t ih =>
    rcases List.mem_cons.mp h1 with rfl | h1t
    · rcases List.mem_cons.mp h2 with rfl | h2t
      · rfl
      · exact absurd hid ((List.pairwise_cons.mp hu).1 v h2t)
    · rcases List.mem_cons.mp h2 with rfl | h2t
      · exact absurd hid.symm ((List.pairwise_cons.mp hu).1 u h1t)
      · exact ih (List.pairwise_cons.mp hu).2 h1t h2t

theorem promote_mem {users : List User} {ex : User} (hex : ex ∈ users) (pw : String) :
    { ex with
        is_admin := true,
        password_hash := if pw_nonempty ex.password_hash then ex.password_hash
                         else some (generate_password_hash pw) }
      ∈ promote users ex.id pw := by
  unfold promote
  refine List.mem_map.mpr ⟨ex, hex, ?_⟩
  simp

theorem reuse_mem {users : List User} {a : User} (ha : a ∈ users) (em pw : String) :
    { a with
        email := em,
        password_hash := some (generate_password_hash pw) }
      ∈ reuse_placeholder users a.id em pw := by
  unfold reuse_placeholder
  refine List.mem_map.mpr ⟨a, ha, ?_⟩
  simp

theorem promote_allPw {users : List User} {exid : ℕ} {pw : String}
    (h : ∀ u ∈ users, pw_nonempty u.password_hash = true) :
    ∀ u' ∈ promote users exid pw, pw_nonempty u'.password_hash = true := by
  intro u' hu'
  unfold promote at hu'
  obtain ⟨u, hu, rfl⟩ := List.mem_map.mp hu'
  split
  · show pw_nonempty (if pw_nonempty u.password_hash then u.password_hash
        else some (generate_password_hash pw)) = true
    split
    · exact h u hu
    · exact gen_pw_nonempty pw
  · exact h u hu

theorem reuse_allPw {users : List User} {aid : ℕ} {em pw : String}
    (h : ∀ u ∈ users, pw_nonempty u.password_hash = true) :
    ∀ u' ∈ reuse_placeholder users aid em pw, pw_nonempty u'.password_hash = true := by
  intro u' hu'
  unfold reuse_placeholder at hu'
  obtain ⟨u, hu, rfl⟩ := List.mem_map.mp hu'
  split
  · exact gen_pw_nonempty pw
  · exact h u hu

theorem setup_body_allPw {users : List User} {admin? : Option User} {f : SetupForm}
    (h : ∀ u ∈ users, pw_nonempty u.password_hash = true) :
    ∀ u' ∈ (setup_body users admin? f).1, pw_nonempty u'.password_hash = true := by
  intro u' hu'
  unfold setup_body at hu'
  simp only [] at hu'
  split at hu'
  · exact h u' hu'
  · split at hu'
    · exact promote_allPw h u' hu'
    · rcases List.mem_append.mp hu' with hl | hr
      · exact h u' hl
      · rw [List.mem_singleton.mp hr]
        exact gen_pw_nonempty f.password
    · split at hu'
      · split at hu'
        · exact promote_allPw h u' hu'
        · exact promote_allPw h u' (List.mem_of_mem_filter hu')
      · exact reuse_allPw h u' hu'
    · exact reuse_allPw h u' hu'

theorem setup_route_allPw {users : List User} {f? : Option SetupForm}
    (h : ∀ u ∈ users, pw_nonempty u.password_hash = true) :
    ∀ u' ∈ (setup_admin_route users f?).1, pw_nonempty u'.password_hash = true := by
  intro u' hu'
  unfold setup_admin_route at hu'
  split at hu'
  · split at hu'
    · exact h u' hu'
    · split at hu'
      · exact h u' hu'
      · exact setup_body_allPw h u' hu'
  · split at hu'
    · exact h u' hu'
    · exact setup_body_allPw h u' hu'

theorem new_user_allPw {users : List User} {email password : String} {adm : Bool}
    (h : ∀ u ∈ users, pw_nonempty u.password_hash = true) :
    ∀ u' ∈ (new_user_post users email password adm).1,
      pw_nonempty u'.password_hash = true := by
  intro u' hu'
  unfold new_user_post at hu'
  simp only [] at hu'
  split at hu'
  · exact h u' hu'
  · split at hu'
    · exact h u' hu'
    · rcases List.mem_append.mp hu' with hl | hr
      · exact h u' hl
      · rw [List.mem_singleton.mp hr]
        exact gen_pw_nonempty password

theorem edit_user_allPw {users : List User} {uid : ℕ} {email : String}
    {adm act : Bool} {pw : String}
    (h : ∀ u ∈ users, pw_nonempty u.password_hash = true) :
    ∀ u' ∈ (edit_user_post users uid email adm act pw).1,
      pw_nonempty u'.password_hash = true := by
  intro u' hu'
  unfold edit_user_post at hu'
  split at hu'
  · exact h u' hu'
  · simp only [] at hu'
    split at hu'
    · exact h u' hu'
    · split at hu'
      · exact h u' hu'
      · obtain ⟨u, hu, rfl⟩ := List.mem_map.mp hu'
        split
        · show pw_nonempty (if pw ≠ "" then some (generate_password_hash pw)
              else u.password_hash) = true
          split
          · exact gen_pw_nonempty pw
          · exact h u hu
        · exact h u hu

theorem applyOp_allPw {users : List User} {op : Op}
    (h : ∀ u ∈ users, pw_nonempty u.password_hash = true) :
    ∀ u' ∈ applyOp users op, pw_nonempty u'.password_hash = true := by
  cases op with
  | setup f? => exact setup_route_allPw h
  | newUser email password adm => exact new_user_allPw h
  | editUser uid email adm act pw => exact edit_user_allPw h

theorem allPw_not_anp {users : List User}
    (h : ∀ u ∈ users, pw_nonempty u.password_hash = true) :
    adminRowNoPassword users = false := by
  unfold adminRowNoPassword
  cases hfa : firstAdmin users with
  | none => rfl
  | some a =>
    show (!pw_nonempty a.password_hash) = false
    rw [h a (firstAdmin_mem hfa)]
    rfl

/-- C5 counterexample: in a state where *some* admin row (`id = 2`) has a
non-empty password hash but the lowest-id admin row (`id = 1`) does not, a
setup POST does not redirect to login — it even commits a state change
(promoting the matched user and deleting the placeholder row). -/
theorem C5_cex :
    (∃ u ∈ [(⟨1, "a@x", none, true, true⟩ : User), ⟨2, "b@x", some "h", true, true⟩],
      u.is_admin = true ∧ pw_nonempty u.password_hash = true) ∧
    (setup_admin_route [⟨1, "a@x", none, true, true⟩, ⟨2, "b@x", some "h", true, true⟩]
        (some ⟨"b@x", "z"⟩)).1
      ≠ [⟨1, "a@x", none, true, true⟩, ⟨2, "b@x", some "h", true, true⟩] ∧
    (setup_admin_route [⟨1, "a@x", none, true, true⟩, ⟨2, "b@x", some "h", true, true⟩]
        (some ⟨"b@x", "z"⟩)).2
      ≠ SetupOutcome.redirectLoginGuard := by
  exact ⟨by decide, by decide, by decide⟩

/-- C5 (amended: the setup guard keys on the lowest-id admin row, not on an
arbitrary admin row, and the one-way property holds from states whose rows
all carry non-empty password hashes): whenever the lowest-id admin row has a
non-empty password hash, every setup request (GET or POST) redirects to
login and performs no state change; and from every state in which all user
rows have non-empty password hashes, no sequence of supported operations
(setup, user-create, user-edit) reaches the `ADMIN_ROW_NO_PASSWORD` state. -/
theorem C5_thm :
    (∀ (users : List User) (a : User) (f? : Option SetupForm),
      firstAdmin users = some a → pw_nonempty a.password_hash = true →
      setup_admin_route users f? = (users, SetupOutcome.redirectLoginGuard)) ∧
    (∀ users : List User, (∀ u ∈ users, pw_nonempty u.password_hash = true) →
      ∀ ops : List Op, adminRowNoPassword (applyOps users ops) = false) := by
  constructor
  · intro users a f? hfa hpw
    unfold setup_admin_route
    rw [hfa]
    show (if pw_nonempty a.password_hash then _ else _) = _
    rw [if_pos hpw]
  · intro users h ops
    induction ops generalizing users with
    | nil => exact allPw_not_anp h
    | cons op ops ih => exact ih (applyOp users op) (applyOp_allPw h)

/-- An admin row with a configured password. -/
def readyAdmin : User := ⟨1, "adm@x", some "h", true, true⟩

/-- C5 witness: the amended theorem applied at a one-admin table and a
one-operation sequence. -/
theorem C5_witness :
    setup_admin_route [readyAdmin] none = ([readyAdmin], SetupOutcome.redirectLoginGuard) ∧
    adminRowNoPassword (applyOps [readyAdmin] [Op.newUser "x@y" "pw" false]) = false :=
  ⟨C5_thm.1 [readyAdmin] readyAdmin none (by decide) (by decide),
   C5_thm.2 [readyAdmin] (by decide) [Op.newUser "x@y" "pw" false]⟩

theorem setup_body_promote_none {users : List User} {f : SetupForm} {ex : User}
    (hcond : ¬ (normEmail f.email = "" ∨ f.password = ""))
    (hfind : users.find? (fun u => u.email == normEmail f.email) = some ex) :
    setup_body users none f = (promote users ex.id f.password,
      .ok "Administrador configurado usando un usuario existente.") := by
  unfold setup_body
  rw [if_neg hcond, hfind]

theorem setup_body_promote_some {users : List User} {f : SetupForm} {a ex : User}
    (hcond : ¬ (normEmail f.email = "" ∨ f.password = ""))
    (hfind : users.find? (fun u => u.email == normEmail f.email) = some ex)
    (hne : ex.id ≠ a.id) (hapw : pw_nonempty a.password_hash = false) :
    setup_body users (some a) f
      = ((promote users ex.id f.password).filter (fun u => u.id != a.id),
         .ok "Administrador configurado promoviendo usuario existente.") := by
  unfold setup_body
  rw [if_neg hcond, hfind]
  show (if ex.id ≠ a.id then _ else _) = _
  rw [if_pos hne, hapw]
  rw [if_neg (by simp)]

theorem setup_body_reuse_eq {users : List User} {f : SetupForm} {a ex : User}
    (hcond : ¬ (normEmail f.email = "" ∨ f.password = ""))
    (hfind : users.find? (fun u => u.email == normEmail f.email) = some ex)
    (heq : ex.id = a.id) :
    setup_body users (some a) f
      = (reuse_placeholder users a.id (normEmail f.email) f.password,
         .ok "Administrador configurado correctamente.") := by
  unfold setup_body
  rw [if_neg hcond, hfind]
  show (if ex.id ≠ a.id then _ else _) = _
  rw [if_neg (by simp [heq])]

/-- C9: in the reachable setup POST (no passworded lowest-id admin exists),
when the submitted email matches an existing user row the matched row is
promoted to admin, and the submitted password is applied to it only when its
stored hash is empty — a non-empty stored hash is left unchanged and the
submitted password is silently ignored. -/
theorem C9_thm : ∀ (users : List User) (f : SetupForm) (ex : User),
    users.Pairwise (fun a b => a.id ≠ b.id) →
    normEmail f.email ≠ "" → f.password ≠ "" →
    users.find? (fun u => u.email == normEmail f.email) = some ex →
    (firstAdmin users = none ∨
      ∃ a, firstAdmin users = some a ∧ pw_nonempty a.password_hash = false) →
    ∃ u' ∈ (setup_admin_route users (some f)).1,
      u'.id = ex.id ∧ u'.email = ex.email ∧ u'.is_admin = true ∧
      u'.password_hash = (if pw_nonempty ex.password_hash then ex.password_hash
                          else some (generate_password_hash f.password)) := by
  intro users f ex hids hem hpw hfind hguard
  have hexmem : ex ∈ users := List.mem_of_find?_eq_some hfind
  have hexemail : ex.email = normEmail f.email := by
    have := List.find?_some hfind
    simpa using this
  have hcond : ¬ (normEmail f.email = "" ∨ f.password = "") := by
    simp [hem, hpw]
  rcases hguard with hnone | ⟨a, ha, hapw⟩
  · have hroute : setup_admin_route users (some f) = setup_body users none f := by
      unfold setup_admin_route
      rw [hnone]
    rw [hroute, setup_body_promote_none hcond hfind]
    exact ⟨_, promote_mem hexmem f.password, rfl, rfl, rfl, rfl⟩
  · have hroute : setup_admin_route users (some f) = setup_body users (some a) f := by
      unfold setup_admin_route
      rw [ha]
      show (if pw_nonempty a.password_hash then _ else _) = _
      rw [hapw]
      rw [if_neg (by simp)]
    rw [hroute]
    by_cases hideq : ex.id = a.id
    · have hexa : ex = a := mem_id_unique hids hexmem (firstAdmin_mem ha) hideq
      rw [setup_body_reuse_eq hcond hfind hideq]
      refine ⟨{ a with
          email := normEmail f.email,
          password_hash := some (generate_password_hash f.password) },
        reuse_mem (firstAdmin_mem ha) (normEmail f.email) f.password, ?_, ?_, ?_, ?_⟩
      · show a.id = ex.id
        rw [hideq]
      · show normEmail f.email = ex.email
        rw [hexemail]
      · show a.is_admin = true
        exact firstAdmin_is_admin ha
      · show some (generate_password_hash f.password) = _
        rw [hexa, hapw]
        rw [if_neg (by simp)]
    · rw [setup_body_promote_some hcond hfind hideq hapw]
      refine ⟨_, List.mem_filter.mpr ⟨promote_mem hexmem f.password, by simp [hideq]⟩,
        rfl, rfl, rfl, rfl⟩

/-- The automatically seeded placeholder admin (no password, highest id). -/
def placeholderAdmin : User := ⟨3, "admin@local", none, true, true⟩

/-- An existing non-admin user with a configured password. -/
def passwordedUser : User := ⟨2, "u@x", some "H", false, true⟩

/-- C9 witness: submitting the existing user's email with a new password
promotes that user while leaving the stored hash `some "H"` untouched. -/
theorem C9_witness :
    ∃ u' ∈ (setup_admin_route [passwordedUser, placeholderAdmin]
        (some ⟨"u@x", "newpw"⟩)).1,
      u'.id = passwordedUser.id ∧ u'.email = passwordedUser.email ∧
      u'.is_admin = true ∧
      u'.password_hash = (if pw_nonempty passwordedUser.password_hash
          then passwordedUser.password_hash
          else some (generate_password_hash "newpw")) :=
  C9_thm [passwordedUser, placeholderAdmin] ⟨"u@x", "newpw"⟩ passwordedUser
    (by decide) (by decide) (by decide) (by decide)
    (Or.inr ⟨placeholderAdmin, by decide, by decide⟩)
